import Mathlib

/-!
# Verification of the key-ripper keyboard firmware against its specification

Shallow embedding of the three source files of `mcginty/key-ripper`
(`src/firmware/src/main.rs`, `src/firmware/src/keyboard.rs`,
`src/firmware/src/key_scan.rs`) and proofs of the specification claims.

Machine integers (`u8`, `usize`) are embedded as `Nat`; all arithmetic that the
source performs on them (`|=` on the modifier byte, bit tests on the LED byte)
stays far below `2^8`/overflow, so no explicit modular reduction is needed.
Matrices `[[bool; NUM_ROWS]; NUM_COLS]` become functions
`Fin NUM_COLS → Fin NUM_ROWS → Bool`; fixed-size byte arrays become `List Nat`
of the corresponding length; fallible HID calls return `Except Unit`.
-/

namespace KeyRipper

/-- `NUM_COLS` from `main.rs` (line 40): number of matrix columns. -/
abbrev NUM_COLS : Nat := 14

/-- `NUM_ROWS` from `main.rs` (line 41): number of matrix rows. -/
abbrev NUM_ROWS : Nat := 6

/-- A key matrix sample `[[bool; NUM_ROWS]; NUM_COLS]`, addressed
column-major as in the source: `m c r` is `matrix[c][r]`. -/
def KeyMatrix : Type := Fin NUM_COLS → Fin NUM_ROWS → Bool

/-- A layer mapping table, matrix-shaped, holding one key-code identity
(the `KeyCode as u8` value) per cell.  `key_mapping.rs` is not part of the
provided sources, so the two concrete firmware tables stay abstract. -/
def LayerTable : Type := Fin NUM_COLS → Fin NUM_ROWS → Nat

/-- Modelled from the spec: `key_codes.rs` (the `KeyCode` enumeration and its
`modifier_bitmask` accessor) is not among the provided sources.  Per spec §3,
modifier identities carry a disjoint single-bit mask, one per standard
modifier; these are the eight HID modifier usages `0xE0`..`0xE7`, whose mask
is `1 << (code - 0xE0)`.  Every other identity has no mask. -/
def modifier_bitmask (c : Nat) : Option Nat :=
  if 0xE0 ≤ c ∧ c ≤ 0xE7 then some (1 <<< (c - 0xE0)) else none

/-- Modelled from the spec: `key_codes.rs` is not among the provided sources.
`KeyCode::is_modifier` holds exactly for the identities carrying a modifier
bit mask (spec §3). -/
def is_modifier (c : Nat) : Bool :=
  (modifier_bitmask c).isSome

/-- Modelled from the spec: `key_codes.rs` is not among the provided sources.
The rollover/error sentinel identities matched by `KbHidReport::pressed`
(`ErrorRollOver | PostFail | ErrorUndefined`) are the HID usages 1, 2, 3. -/
def isSentinel (c : Nat) : Bool :=
  c == 1 || c == 2 || c == 3

/-- A key-code identity classified as a normal key: neither the empty
identity 0, nor a rollover sentinel, nor a modifier (spec §3: the
classification is exhaustive and exclusive). -/
def isNormalKey (c : Nat) : Bool :=
  !(c == 0) && !(isSentinel c) && !(is_modifier c)

/-! ## `keyboard.rs`: `KbHidReport` and the `Keyboard` HID device -/

/-- `KbHidReport` (`keyboard.rs` line 137): the 8-byte boot keyboard input
report `[u8; 8]`, split as byte 0 = modifier, byte 1 = reserved,
bytes 2..7 = the six key slots. -/
structure KbHidReport where
  modifier : Nat
  reserved : Nat
  slots : List Nat
deriving DecidableEq, Repr

/-- The byte view of a report (`Deref for KbHidReport`, `keyboard.rs`
lines 139-145). -/
def KbHidReport.bytes (r : KbHidReport) : List Nat :=
  r.modifier :: r.reserved :: r.slots

/-- `KbHidReport::empty` / `KbHidReport::default` (`keyboard.rs` line 148):
the all-zero report. -/
def KbHidReport.empty : KbHidReport :=
  ⟨0, 0, List.replicate 6 0⟩

/-- `KbHidReport::set_all` (`keyboard.rs` lines 167-171): overwrite every
key slot (`self.0[2..]`) with the given code. -/
def KbHidReport.setAll (r : KbHidReport) (c : Nat) : KbHidReport :=
  { r with slots := r.slots.map fun _ => c }

/-- The slot update performed by `self.0[2..].iter_mut().find(|c| **c == 0)
.map(|c| *c = kc as u8)` (`keyboard.rs` lines 160-163): write `v` into the
first slot holding 0, or report failure when no slot holds 0. -/
def setFirstZero (l : List Nat) (v : Nat) : Option (List Nat) :=
  match l with
  | [] => none
  | c :: rest =>
    if c = 0 then some (v :: rest)
    else (setFirstZero rest v).map fun r => c :: r

/-- `KbHidReport::pressed` (`keyboard.rs` lines 154-166): add one key code to
the report.  Empty does nothing; a sentinel overwrites every slot with
itself; a modifier ORs its bit mask into byte 0; a normal key goes into the
first empty slot, and if none is empty every slot is overwritten with
`ErrorRollOver` (= 1). -/
def KbHidReport.pressed (r : KbHidReport) (c : Nat) : KbHidReport :=
  if c == 0 then r
  else if isSentinel c then r.setAll c
  else
    match modifier_bitmask c with
    | some b => { r with modifier := r.modifier ||| b }
    | none =>
      match setFirstZero r.slots c with
      | some s => { r with slots := s }
      | none => r.setAll 1

/-- Modelled from the spec: `hid.rs` (`ReportType`) is not among the provided
sources; per spec §4.4 the HID contract distinguishes the Input, Output and
Feature report types. -/
inductive ReportType where
  | Input
  | Output
  | Feature
deriving DecidableEq, Repr

/-- Modelled from the spec: `hid.rs` (`Subclass`) is not among the provided
sources; `Keyboard::subclass` returns the boot-interface subclass
(spec §4.4). -/
inductive Subclass where
  | BootInterface
  | NoSubClass
deriving DecidableEq, Repr

/-- Modelled from the spec: `hid.rs` (`Protocol`) is not among the provided
sources; `Keyboard::protocol` returns the keyboard protocol (spec §4.4). -/
inductive Protocol where
  | Keyboard
  | Mouse
  | NoProtocol
deriving DecidableEq, Repr

/-- The state held by the LED collaborator (the `Leds` trait of
`keyboard.rs` lines 10-21): five independent boolean indicators, one per
setter of the trait. -/
structure LedsState where
  num_lock : Bool
  caps_lock : Bool
  scroll_lock : Bool
  compose : Bool
  kana : Bool
deriving DecidableEq, Repr

/-- `Keyboard<L>` (`keyboard.rs` lines 61-64): the stored input report and
the LED collaborator. -/
structure Keyboard where
  report : KbHidReport
  leds : LedsState
deriving DecidableEq, Repr

/-- `Keyboard::new` (`keyboard.rs` lines 68-73): default (all-zero) report. -/
def Keyboard.new (l : LedsState) : Keyboard :=
  ⟨KbHidReport.empty, l⟩

/-- `Keyboard::set_keyboard_report` (`keyboard.rs` lines 75-82): store the
report and return `true` exactly when it differs from the stored one. -/
def Keyboard.set_keyboard_report (k : Keyboard) (r : KbHidReport) :
    Bool × Keyboard :=
  if r = k.report then (false, k) else (true, { k with report := r })

/-- `Keyboard::subclass` (`keyboard.rs` lines 91-93). -/
def Keyboard.subclass : Subclass := Subclass.BootInterface

/-- `Keyboard::protocol` (`keyboard.rs` lines 95-97). -/
def Keyboard.protocol : Protocol := Protocol.Keyboard

/-- `Keyboard::max_packet_size` (`keyboard.rs` lines 99-101). -/
def Keyboard.max_packet_size : Nat := 8

/-- `Keyboard::get_report` (`keyboard.rs` lines 107-112): the Input report
type yields the stored report's bytes, any other type fails; the report id
argument is ignored. -/
def Keyboard.get_report (k : Keyboard) (t : ReportType) (_id : Nat) :
    Except Unit (List Nat) :=
  match t with
  | ReportType.Input => Except.ok k.report.bytes
  | _ => Except.error ()

/-- The LED decode performed by `Keyboard::set_report` (`keyboard.rs`
lines 121-126): bits 0-4 of the payload byte, forwarded through the five
`Leds` setters in order. -/
def ledsOfByte (d : Nat) : LedsState :=
  ⟨(d &&& 1) != 0, (d &&& (1 <<< 1)) != 0, (d &&& (1 <<< 2)) != 0,
   (d &&& (1 <<< 3)) != 0, (d &&& (1 <<< 4)) != 0⟩

/-- `Keyboard::set_report` (`keyboard.rs` lines 114-130): accepted only for
the Output type, report id 0 and exactly one payload byte, in which case the
five LED setters are invoked with bits 0-4 of that byte; every other
combination fails with `hid::Error`. -/
def Keyboard.set_report (k : Keyboard) (t : ReportType) (id : Nat)
    (data : List Nat) : Except Unit Unit × Keyboard :=
  if t = ReportType.Output ∧ id = 0 ∧ data.length = 1 then
    (Except.ok (), { k with leds := ledsOfByte (data.headD 0) })
  else (Except.error (), k)

/-- `REPORT_DESCRIPTOR` (`keyboard.rs` lines 25-58), byte for byte. -/
def REPORT_DESCRIPTOR : List Nat :=
  [0x05, 0x01,
   0x09, 0x06,
   0xA1, 0x01,
   0x05, 0x07,
   0x19, 0xE0,
   0x29, 0xE7,
   0x15, 0x00,
   0x25, 0x01,
   0x95, 0x08,
   0x75, 0x01,
   0x81, 0x02,
   0x95, 0x01,
   0x75, 0x08,
   0x81, 0x03,
   0x05, 0x07,
   0x19, 0x00,
   0x29, 0xFF,
   0x15, 0x00,
   0x26, 0xFF, 0x00,
   0x95, 0x06,
   0x75, 0x08,
   0x81, 0x00,
   0x05, 0x08,
   0x19, 0x01,
   0x29, 0x05,
   0x95, 0x05,
   0x75, 0x01,
   0x91, 0x02,
   0x95, 0x01,
   0x75, 0x03,
   0x91, 0x03,
   0xC0]

/-! ### Structured rendering of the report descriptor (spec side)

The following item encoders follow the spec's words (§6: "a single collection
describing an 8-bit modifier bitfield (8 usages, 1 bit each), 1 constant
reserved byte, 6 array-type 8-bit key usages (values 0-255), and an output
collection of 5 single-bit LED usages followed by 3 constant padding bits").
They encode HID short items: prefix byte = tag (high nibble), item type
(bits 3-2), data size (bits 1-0), followed by the data bytes. -/

/-- A HID short item with the given tag, type and data bytes. -/
def shortItem (tag typ : Nat) (data : List Nat) : List Nat :=
  (tag * 16 + typ * 4 + data.length) :: data

/-- Global item: Usage Page. -/
def usagePage (v : Nat) : List Nat := shortItem 0 1 [v]

/-- Local item: Usage. -/
def usageOf (v : Nat) : List Nat := shortItem 0 2 [v]

/-- Main item: Collection (`0x01` = Application). -/
def collectionOf (v : Nat) : List Nat := shortItem 10 0 [v]

/-- Local item: Usage Minimum. -/
def usageMin (v : Nat) : List Nat := shortItem 1 2 [v]

/-- Local item: Usage Maximum. -/
def usageMax (v : Nat) : List Nat := shortItem 2 2 [v]

/-- Global item: Logical Minimum. -/
def logicalMin (v : Nat) : List Nat := shortItem 1 1 [v]

/-- Global item: Logical Maximum, one data byte. -/
def logicalMax8 (v : Nat) : List Nat := shortItem 2 1 [v]

/-- Global item: Logical Maximum, two data bytes (little endian). -/
def logicalMax16 (v : Nat) : List Nat := shortItem 2 1 [v % 256, v / 256]

/-- Global item: Report Count. -/
def reportCount (v : Nat) : List Nat := shortItem 9 1 [v]

/-- Global item: Report Size (bits per field). -/
def reportSize (v : Nat) : List Nat := shortItem 7 1 [v]

/-- Main item: Input with the given flag byte (0 = Data,Array;
2 = Data,Var,Abs; 3 = Const,Var,Abs). -/
def inputItem (flags : Nat) : List Nat := shortItem 8 0 [flags]

/-- Main item: Output with the given flag byte. -/
def outputItem (flags : Nat) : List Nat := shortItem 9 0 [flags]

/-- Main item: End Collection. -/
def endCollection : List Nat := shortItem 12 0 []

/-- The descriptor the spec describes (§6, spec side of the refinement):
one application collection for the keyboard usage holding an 8-bit modifier
bitfield (usages `0xE0`-`0xE7`, 8 fields of 1 bit, logical 0-1), one constant
8-bit reserved field, six 8-bit array-type key fields with usages and logical
range 0-255, five 1-bit LED output fields (usages 1-5), and three constant
output padding bits. -/
def specDescriptorBytes : List Nat :=
  usagePage 0x01 ++ usageOf 0x06 ++ collectionOf 0x01 ++
  usagePage 0x07 ++ usageMin 0xE0 ++ usageMax 0xE7 ++
  logicalMin 0 ++ logicalMax8 1 ++
  reportCount 8 ++ reportSize 1 ++ inputItem 2 ++
  reportCount 1 ++ reportSize 8 ++ inputItem 3 ++
  usagePage 0x07 ++ usageMin 0x00 ++ usageMax 0xFF ++
  logicalMin 0 ++ logicalMax16 255 ++
  reportCount 6 ++ reportSize 8 ++ inputItem 0 ++
  usagePage 0x08 ++ usageMin 0x01 ++ usageMax 0x05 ++
  reportCount 5 ++ reportSize 1 ++ outputItem 2 ++
  reportCount 1 ++ reportSize 3 ++ outputItem 3 ++
  endCollection

/-! ## Scan order and the two report encoders -/

/-- All matrix cells in the deterministic scan order of the source loops:
columns outermost, rows within a column (column-major). -/
def cellsScanOrder : List (Fin NUM_COLS × Fin NUM_ROWS) :=
  (List.finRange NUM_COLS).flatMap fun c =>
    (List.finRange NUM_ROWS).map fun r => (c, r)

/-- The key codes of the asserted cells of `m`, mapped through `table`, in
scan order. -/
def pressedCodes (table : LayerTable) (m : KeyMatrix) : List Nat :=
  (cellsScanOrder.filter fun p => m p.1 p.2).map fun p => table p.1 p.2

/-- The layer selection of `key_scan.rs` lines 51-55 and `main.rs`
lines 266-270: cell `matrix[0][5]` asserted selects the FN table, otherwise
the normal table. -/
def selectedTable (tfn tnm : LayerTable) (m : KeyMatrix) : LayerTable :=
  if m 0 5 then tfn else tnm

/-- The encoding loop of `From<KeyScan> for KbHidReport` (`key_scan.rs`
lines 57-67) under a given table: feed every asserted cell's code to
`KbHidReport::pressed`, starting from the default report. -/
def kbReportUnder (table : LayerTable) (m : KeyMatrix) : KbHidReport :=
  cellsScanOrder.foldl
    (fun r p => if m p.1 p.2 then r.pressed (table p.1 p.2) else r)
    KbHidReport.empty

/-- `From<KeyScan> for KbHidReport` (`key_scan.rs` lines 50-68): select the
layer from `matrix[0][5]`, then encode every asserted cell. -/
def kbReportFromScan (tfn tnm : LayerTable) (m : KeyMatrix) : KbHidReport :=
  kbReportUnder (selectedTable tfn tnm m) m

/-- `usbd_hid::descriptor::KeyboardReport` as constructed by `main.rs`
line 284.  Modelled from the spec: the `usbd_hid` crate is external; per
spec §6 the input report wire format is `[modifier][reserved=0][key0..key5]`,
and the struct additionally carries the (output-only) `leds` field that
`main.rs` sets to 0. -/
structure KeyboardReport where
  modifier : Nat
  reserved : Nat
  leds : Nat
  keycodes : List Nat
deriving DecidableEq, Repr

/-- The state of `report_from_matrix`'s accumulation (`main.rs`
lines 255-264): the modifier byte and the prefix of keycode slots written so
far (the `keycodes` array together with `keycode_index`).  `push_keycode`
writes into the next slot only while fewer than 6 slots are used; otherwise
it does nothing. -/
def pushKeycodeState (a : Nat × List Nat) (c : Nat) : Nat × List Nat :=
  match modifier_bitmask c with
  | some b => (a.1 ||| b, a.2)
  | none => (a.1, if a.2.length < 6 then a.2 ++ [c] else a.2)

/-- The accumulation loop of `report_from_matrix` (`main.rs` lines 272-282)
under a given table: every asserted cell's code is fed to the
modifier-or-push step, starting from modifier 0 and no written slots. -/
def encodeState (table : LayerTable) (m : KeyMatrix) : Nat × List Nat :=
  cellsScanOrder.foldl
    (fun a p => if m p.1 p.2 then pushKeycodeState a (table p.1 p.2) else a)
    (0, [])

/-- The encoding loop of `report_from_matrix` (`main.rs` lines 272-284) under
a given table: modifiers OR their mask, every other asserted cell's code is
pushed; the final `keycodes` array is the written prefix padded with zeros
to 6 slots. -/
def reportUnder (table : LayerTable) (m : KeyMatrix) : KeyboardReport :=
  ⟨(encodeState table m).1, 0, 0,
   (encodeState table m).2
     ++ List.replicate (6 - (encodeState table m).2.length) 0⟩

/-- `report_from_matrix` (`main.rs` lines 254-285): select the layer from
`matrix[0][5]`, then run the encoding loop. -/
def report_from_matrix (tfn tnm : LayerTable) (m : KeyMatrix) :
    KeyboardReport :=
  reportUnder (selectedTable tfn tnm m) m

/-! ## `key_scan.rs` scan, the main loop and its control flow -/

/-- `KeyScan::scan` (`key_scan.rs` lines 22-44): after the GPIO loop has
gathered the raw matrix (`raw`), the full raw matrix is handed once to
`debounce.report_and_tick`, and the filter's returned matrix (paired with
the filter's updated state) is the scan result.  The debounce filter is the
external collaborator of spec §2, kept abstract as `reportAndTick`/`db`. -/
def keyScanScan {σ : Type} (reportAndTick : σ → KeyMatrix → KeyMatrix × σ)
    (db : σ) (raw : KeyMatrix) : KeyMatrix × σ :=
  reportAndTick db raw

/-- The report produced for one cycle by the `KeyScan` pipeline: encode
(`From<KeyScan> for KbHidReport`) the matrix returned by `keyScanScan`. -/
def scanCycleReport {σ : Type} (reportAndTick : σ → KeyMatrix → KeyMatrix × σ)
    (db : σ) (tfn tnm : LayerTable) (raw : KeyMatrix) : KbHidReport :=
  kbReportFromScan tfn tnm (keyScanScan reportAndTick db raw).1

/-- One body execution of the main polling loop (`main.rs` lines 196-216):
`scan_keys` gathers the raw matrix (it contains no debounce call), the report
is encoded from it by `report_from_matrix`, and that report is handed to
`push_mouse_movement` unconditionally. -/
def mainLoopCycle (tfn tnm : LayerTable) (raw : KeyMatrix) : KeyboardReport :=
  report_from_matrix tfn tnm raw

/-- The sequence of reports the main loop hands to the transport over a
sequence of completed scan periods (`main.rs` lines 196-216): one
unconditional `push_input` per period. -/
def pushesOverCycles (tfn tnm : LayerTable) (ms : List KeyMatrix) :
    List KeyboardReport :=
  ms.map (mainLoopCycle tfn tnm)

/-- Modelled from the spec: `debounce.rs` (`Debounce::report_and_tick`) is an
external collaborator (spec §2: it "takes one raw boolean matrix sample per
scan cycle, returns a stabilized boolean matrix; owns all temporal filtering
state").  This is one admissible filter instance: a filter that has not yet
confirmed any switch as stably closed, so it reports the all-open matrix. -/
def dbConstFalse : Unit → KeyMatrix → KeyMatrix × Unit :=
  fun _ _ => (fun _ _ => false, ())

/-- The control-flow phases of `main` (`main.rs` lines 177-217): either the
loop is running with a count of executed loop-body iterations, or control
was handed to `reset_to_usb_boot`, which never returns. -/
inductive FwPhase where
  | loopRun (iters : Nat)
  | boot
deriving DecidableEq, Repr

/-- The one-shot startup check of `main.rs` lines 177-184: one scan before
the loop; if cell `matrix[0][0]` is asserted, control goes irreversibly to
the bootloader, otherwise the loop starts with zero iterations executed. -/
def initialPhase (first : KeyMatrix) : FwPhase :=
  if first 0 0 then FwPhase.boot else FwPhase.loopRun 0

/-- One subsequent scan period (`main.rs` lines 193-217): a running loop
executes one more body iteration — the loop body contains no bootloader
check, whatever the scanned matrix — and the bootloader call never
returns. -/
def stepPhase (p : FwPhase) (_next : KeyMatrix) : FwPhase :=
  match p with
  | FwPhase.boot => FwPhase.boot
  | FwPhase.loopRun n => FwPhase.loopRun (n + 1)

/-- The firmware's control flow from power-on: the startup check on the
first scanned matrix, then one `stepPhase` per later scan period. -/
def runFirmware (first : KeyMatrix) (rest : List KeyMatrix) : FwPhase :=
  rest.foldl stepPhase (initialPhase first)

/-- The reports of two consecutive executions of the main loop body
(`main.rs` lines 196-216): the encoder is a pure function of the scanned
matrix, so no state flows from the first cycle into the second. -/
def consecutiveReports (tfn tnm : LayerTable) (m1 m2 : KeyMatrix) :
    KeyboardReport × KeyboardReport :=
  (report_from_matrix tfn tnm m1, report_from_matrix tfn tnm m2)

/-! ## Concrete fixtures

Small concrete layer tables and matrices used to evaluate the embedded code
at specific inputs.  `key_mapping.rs` is not among the provided sources, so
these are admissible instances of the spec's opaque matrix-shaped key-code
tables (spec §3), exercising the classes of identities the claims mention. -/

/-- A table mapping cell (0,0) to normal key 4 and cell (0,1) to the
left-control modifier `0xE0`; every other cell maps to the empty identity. -/
def tblW : LayerTable := fun c r =>
  if c = 0 ∧ r = 0 then 4 else if c = 0 ∧ r = 1 then 0xE0 else 0

/-- A table mapping cell (0,1) to normal key 4 and everything else — in
particular cell (0,0) — to the empty identity 0. -/
def tblCE : LayerTable := fun c r =>
  if c = 0 ∧ r = 1 then 4 else 0

/-- A table mapping seven cells, in scan order, to the normal keys 4..10. -/
def tbl7 : LayerTable := fun c r =>
  if c = 0 ∧ r = 0 then 4 else if c = 0 ∧ r = 1 then 5
  else if c = 0 ∧ r = 2 then 6 else if c = 0 ∧ r = 3 then 7
  else if c = 0 ∧ r = 4 then 8 else if c = 1 ∧ r = 0 then 9
  else if c = 1 ∧ r = 1 then 10 else 0

/-- A matrix asserting cells (0,0) and (0,1) only. -/
def mW : KeyMatrix := fun c r => decide (c = 0 ∧ (r = 0 ∨ r = 1))

/-- A matrix asserting the seven cells `tbl7` maps to normal keys. -/
def m7 : KeyMatrix := fun c r =>
  decide ((c = 0 ∧ (r = 0 ∨ r = 1 ∨ r = 2 ∨ r = 3 ∨ r = 4))
    ∨ (c = 1 ∧ (r = 0 ∨ r = 1)))

/-- The all-open matrix. -/
def mEmpty : KeyMatrix := fun _ _ => false

/-- A matrix asserting only the bootloader-entry cell (column 0, row 0). -/
def mBoot : KeyMatrix := fun c r => decide (c = 0 ∧ r = 0)

/-- A matrix asserting only the layer-select cell (column 0, row 5). -/
def mFN : KeyMatrix := fun c r => decide (c = 0 ∧ r = 5)

/-- All LED indicators off. -/
def ledsInit : LedsState := ⟨false, false, false, false, false⟩

/-- A freshly created keyboard device. -/
def k0 : Keyboard := Keyboard.new ledsInit

/-- A nonempty report used to exercise `set_keyboard_report`. -/
def rptW : KbHidReport := ⟨0, 0, [4, 0, 0, 0, 0, 0]⟩

/-! ## Helper lemmas -/

/-- A guarded fold over a list equals the plain fold over the filtered,
mapped list: this connects the cell loops of both encoders to the list of
asserted cells' key codes. -/
theorem foldl_if_filter {α β γ : Type} (f : α → γ → α) (pr : β → Bool)
    (g : β → γ) :
    ∀ (l : List β) (a : α),
      l.foldl (fun acc p => if pr p then f acc (g p) else acc) a
        = ((l.filter pr).map g).foldl f a := by
  intro l
  induction l with
  | nil => intro a; rfl
  | cons p t ih =>
    intro a
    cases h : pr p <;>
      simp [List.foldl_cons, List.filter_cons, h, ih]

/-- `kbReportUnder` is the fold of `KbHidReport.pressed` over the asserted
cells' codes in scan order. -/
theorem kbReportUnder_eq (table : LayerTable) (m : KeyMatrix) :
    kbReportUnder table m
      = (pressedCodes table m).foldl KbHidReport.pressed KbHidReport.empty :=
  foldl_if_filter KbHidReport.pressed
    (fun p : Fin NUM_COLS × Fin NUM_ROWS => m p.1 p.2)
    (fun p : Fin NUM_COLS × Fin NUM_ROWS => table p.1 p.2)
    cellsScanOrder KbHidReport.empty

/-- `encodeState` is the fold of `pushKeycodeState` over the asserted cells'
codes in scan order. -/
theorem encodeState_eq (table : LayerTable) (m : KeyMatrix) :
    encodeState table m
      = (pressedCodes table m).foldl pushKeycodeState (0, []) :=
  foldl_if_filter pushKeycodeState
    (fun p : Fin NUM_COLS × Fin NUM_ROWS => m p.1 p.2)
    (fun p : Fin NUM_COLS × Fin NUM_ROWS => table p.1 p.2)
    cellsScanOrder (0, [])

/-- Writing into the first zero slot of `keys ++ 0 :: zeros`, where every
written key is nonzero, lands exactly on the first padding slot. -/
theorem setFirstZero_append (c : Nat) :
    ∀ (keys : List Nat), (∀ k ∈ keys, k ≠ 0) → ∀ (n : Nat),
      setFirstZero (keys ++ 0 :: List.replicate n 0) c
        = some (keys ++ c :: List.replicate n 0) := by
  intro keys
  induction keys with
  | nil => intro _ n; simp [setFirstZero]
  | cons k ks ih =>
    intro h n
    have hk : k ≠ 0 := h k (List.mem_cons_self k ks)
    have ih2 := ih (fun x hx => h x (List.mem_cons_of_mem k hx)) n
    simp [setFirstZero, hk, ih2]

/-- A modifier code lies in the modifier usage range. -/
theorem modifier_bitmask_range {c b : Nat} (h : modifier_bitmask c = some b) :
    0xE0 ≤ c ∧ c ≤ 0xE7 := by
  by_contra hr
  simp [modifier_bitmask, hr] at h

/-- A code with a modifier bit mask is classified as a modifier. -/
theorem is_modifier_of_bitmask {c b : Nat} (h : modifier_bitmask c = some b) :
    is_modifier c = true := by
  simp [is_modifier, h]

/-- A code without a modifier bit mask is not classified as a modifier. -/
theorem not_modifier_of_bitmask {c : Nat} (h : modifier_bitmask c = none) :
    is_modifier c = false := by
  simp [is_modifier, h]

/-- Loop invariant for the `KbHidReport::pressed` fold: starting from a
report whose slots are `keys` (all nonzero) followed by `p` zero slots, a
sentinel-free code list with at most `p` normal keys accumulates the
modifier masks into byte 0 and appends the normal keys, left-packed, to the
slots. -/
theorem pressed_fold_inv :
    ∀ (codes : List Nat) (mods rsv : Nat) (keys : List Nat) (p : Nat),
      (∀ c ∈ codes, isSentinel c = false) →
      (∀ k ∈ keys, k ≠ 0) →
      (codes.filter isNormalKey).length ≤ p →
      codes.foldl KbHidReport.pressed ⟨mods, rsv, keys ++ List.replicate p 0⟩
        = ⟨(codes.filterMap modifier_bitmask).foldl (fun a b => a ||| b) mods,
           rsv,
           (keys ++ codes.filter isNormalKey)
             ++ List.replicate (p - (codes.filter isNormalKey).length) 0⟩ := by
  intro codes
  induction codes with
  | nil => intro mods rsv keys p _ _ _; simp
  | cons c cs ih =>
    intro mods rsv keys p hsent hkeys hlen
    have hs : isSentinel c = false := hsent c (List.mem_cons_self c cs)
    have hsent2 : ∀ x ∈ cs, isSentinel x = false :=
      fun x hx => hsent x (List.mem_cons_of_mem c hx)
    by_cases hc0 : c = 0
    · subst hc0
      have hstep : KbHidReport.pressed ⟨mods, rsv, keys ++ List.replicate p 0⟩ 0
          = ⟨mods, rsv, keys ++ List.replicate p 0⟩ := by
        simp [KbHidReport.pressed]
      have hnk : isNormalKey 0 = false := by decide
      have hbm : modifier_bitmask 0 = none := by decide
      rw [List.foldl_cons, hstep, List.filter_cons, List.filterMap_cons, hnk,
        hbm]
      simpa using ih mods rsv keys p hsent2 hkeys (by simpa [hnk] using hlen)
    · cases hbm : modifier_bitmask c with
      | some b =>
        have hrange := modifier_bitmask_range hbm
        have hmod := is_modifier_of_bitmask hbm
        have hnk : isNormalKey c = false := by
          simp [isNormalKey, hmod]
        have hstep :
            KbHidReport.pressed ⟨mods, rsv, keys ++ List.replicate p 0⟩ c
              = ⟨mods ||| b, rsv, keys ++ List.replicate p 0⟩ := by
          simp [KbHidReport.pressed, hc0, hs, hbm]
        rw [List.foldl_cons, hstep, List.filter_cons, List.filterMap_cons,
          hnk, hbm]
        simpa using ih (mods ||| b) rsv keys p hsent2 hkeys
          (by simpa [hnk] using hlen)
      | none =>
        have hmod := not_modifier_of_bitmask hbm
        have hnk : isNormalKey c = true := by
          simp [isNormalKey, hc0, hs, hmod]
        have hp : 1 ≤ p := by
          have := hlen
          rw [List.filter_cons, hnk] at this
          simp at this
          omega
        obtain ⟨q, rfl⟩ : ∃ q, p = q + 1 := ⟨p - 1, by omega⟩
        have hrep : List.replicate (q + 1) (0 : Nat)
            = 0 :: List.replicate q 0 := rfl
        have hset := setFirstZero_append c keys hkeys q
        have hstep :
            KbHidReport.pressed ⟨mods, rsv, keys ++ List.replicate (q + 1) 0⟩ c
              = ⟨mods, rsv, (keys ++ [c]) ++ List.replicate q 0⟩ := by
          simp [KbHidReport.pressed, hc0, hs, hbm, hrep, hset]
        have hkeys2 : ∀ k ∈ keys ++ [c], k ≠ 0 := by
          intro k hk
          rcases List.mem_append.mp hk with h1 | h1
          · exact hkeys k h1
          · simp at h1; omega
        have hlen2 : (cs.filter isNormalKey).length ≤ q := by
          rw [List.filter_cons, hnk] at hlen
          simp at hlen
          omega
        rw [List.foldl_cons, hstep, List.filter_cons, List.filterMap_cons,
          hnk, hbm]
        rw [ih mods rsv (keys ++ [c]) q hsent2 hkeys2 hlen2]
        simp [List.append_assoc, Nat.succ_sub_succ]

/-- Loop invariant for the `push_keycode` fold of `report_from_matrix`:
starting from written slots `keys`, a code list of normal keys and modifiers
whose normal keys fit into the six slots accumulates the modifier masks and
appends the normal keys in order. -/
theorem push_fold_inv :
    ∀ (codes : List Nat) (mods : Nat) (keys : List Nat),
      (∀ c ∈ codes, isNormalKey c = true ∨ is_modifier c = true) →
      keys.length + (codes.filter isNormalKey).length ≤ 6 →
      codes.foldl pushKeycodeState (mods, keys)
        = ((codes.filterMap modifier_bitmask).foldl (fun a b => a ||| b) mods,
           keys ++ codes.filter isNormalKey) := by
  intro codes
  induction codes with
  | nil => intro mods keys _ _; simp
  | cons c cs ih =>
    intro mods keys hcls hlen
    have hcls2 : ∀ x ∈ cs, isNormalKey x = true ∨ is_modifier x = true :=
      fun x hx => hcls x (List.mem_cons_of_mem c hx)
    cases hbm : modifier_bitmask c with
    | some b =>
      have hmod := is_modifier_of_bitmask hbm
      have hnk : isNormalKey c = false := by simp [isNormalKey, hmod]
      have hstep : pushKeycodeState (mods, keys) c = (mods ||| b, keys) := by
        simp [pushKeycodeState, hbm]
      rw [List.foldl_cons, hstep, List.filter_cons, List.filterMap_cons, hnk,
        hbm]
      simpa using ih (mods ||| b) keys hcls2 (by simpa [hnk] using hlen)
    | none =>
      have hmod := not_modifier_of_bitmask hbm
      have hnk : isNormalKey c = true := by
        rcases hcls c (List.mem_cons_self c cs) with h | h
        · exact h
        · rw [hmod] at h; cases h
      have hkeyslt : keys.length < 6 := by
        rw [List.filter_cons, hnk] at hlen
        simp at hlen
        omega
      have hstep : pushKeycodeState (mods, keys) c = (mods, keys ++ [c]) := by
        simp [pushKeycodeState, hbm, hkeyslt]
      have hlen2 : (keys ++ [c]).length + (cs.filter isNormalKey).length ≤ 6 := by
        rw [List.filter_cons, hnk] at hlen
        simp at hlen ⊢
        omega
      rw [List.foldl_cons, hstep, List.filter_cons, List.filterMap_cons, hnk,
        hbm]
      rw [ih mods (keys ++ [c]) hcls2 hlen2]
      simp [List.append_assoc]

/-- The stored report after `set_keyboard_report` is always the report that
was passed in (when the call returns `false` the two were equal anyway). -/
theorem set_keyboard_report_report (k : Keyboard) (r : KbHidReport) :
    ((k.set_keyboard_report r).2).report = r := by
  unfold Keyboard.set_keyboard_report
  split
  · next h => exact h.symm
  · rfl

/-- Once control is in the bootloader, it stays there. -/
theorem foldl_stepPhase_boot :
    ∀ (ms : List KeyMatrix), ms.foldl stepPhase FwPhase.boot = FwPhase.boot := by
  intro ms
  induction ms with
  | nil => rfl
  | cons m t ih => simpa [stepPhase] using ih

/-- A running loop stays a running loop, one body iteration per period. -/
theorem foldl_stepPhase_loopRun :
    ∀ (ms : List KeyMatrix) (n : Nat),
      ms.foldl stepPhase (FwPhase.loopRun n) = FwPhase.loopRun (n + ms.length) := by
  intro ms
  induction ms with
  | nil => intro n; rfl
  | cons m t ih =>
    intro n
    rw [List.foldl_cons]
    show t.foldl stepPhase (FwPhase.loopRun (n + 1)) = _
    rw [ih (n + 1)]
    simp
    omega

/-! ## Claim theorems -/

/-- C1 (counterexample): the claim as stated fails on the firmware's
main-loop encoder `report_from_matrix`.  Under the table `tblCE` the matrix
`mCE := mW` asserts one cell mapping to the empty identity (scanned first)
and one cell mapping to normal key 4, so at most 6 cells map to normal-key
identities; the claim then demands key bytes `[4,0,0,0,0,0]` (the asserted
normal keys left-packed), but `push_keycode` also consumes a slot for the
empty-mapped cell and produces `[0,4,0,0,0,0]`. -/
theorem c1_counterexample :
    ((pressedCodes (selectedTable tblCE tblCE mW) mW).filter isNormalKey).length ≤ 6
    ∧ (report_from_matrix tblCE tblCE mW).keycodes = [0, 4, 0, 0, 0, 0]
    ∧ (report_from_matrix tblCE tblCE mW).keycodes ≠ [4, 0, 0, 0, 0, 0] := by
  refine ⟨by decide, by decide, by decide⟩

/-- C1 (amended): for every matrix and tables whose asserted cells map to no
rollover sentinel and to at most 6 normal-key identities, the
`KbHidReport`-based encoder (`key_scan.rs`/`keyboard.rs`) produces byte 0 =
OR of the asserted modifier bit masks, byte 1 = 0, and key slots holding
exactly the asserted normal-key identities in column-major scan order,
left-packed, remainder zero; the main-loop encoder `report_from_matrix`
produces the same report under the additional proviso that no asserted cell
maps to the empty identity. -/
theorem c1_amended (tfn tnm : LayerTable) (m : KeyMatrix)
    (hsent : ∀ c ∈ pressedCodes (selectedTable tfn tnm m) m,
      isSentinel c = false)
    (hcount :
      ((pressedCodes (selectedTable tfn tnm m) m).filter isNormalKey).length
        ≤ 6) :
    kbReportFromScan tfn tnm m
      = ⟨((pressedCodes (selectedTable tfn tnm m) m).filterMap
            modifier_bitmask).foldl (fun a b => a ||| b) 0,
         0,
         (pressedCodes (selectedTable tfn tnm m) m).filter isNormalKey
           ++ List.replicate
                (6 - ((pressedCodes (selectedTable tfn tnm m) m).filter
                        isNormalKey).length) 0⟩
    ∧ ((∀ c ∈ pressedCodes (selectedTable tfn tnm m) m,
          isNormalKey c = true ∨ is_modifier c = true) →
       report_from_matrix tfn tnm m
         = ⟨((pressedCodes (selectedTable tfn tnm m) m).filterMap
               modifier_bitmask).foldl (fun a b => a ||| b) 0,
            0, 0,
            (pressedCodes (selectedTable tfn tnm m) m).filter isNormalKey
              ++ List.replicate
                   (6 - ((pressedCodes (selectedTable tfn tnm m) m).filter
                           isNormalKey).length) 0⟩) := by
  constructor
  · have hbase := pressed_fold_inv (pressedCodes (selectedTable tfn tnm m) m)
      0 0 [] 6 hsent (by intro k hk; cases hk) hcount
    unfold kbReportFromScan
    rw [kbReportUnder_eq]
    show (pressedCodes (selectedTable tfn tnm m) m).foldl KbHidReport.pressed
      ⟨0, 0, [] ++ List.replicate 6 0⟩ = _
    rw [hbase]
    simp
  · intro hcls
    have hbase := push_fold_inv (pressedCodes (selectedTable tfn tnm m) m)
      0 [] hcls (by simpa using hcount)
    unfold report_from_matrix reportUnder
    rw [encodeState_eq, hbase]
    simp

/-- C1 (witness): at the table `tblW` (normal key 4 at cell (0,0), left
control `0xE0` at cell (0,1)) and the matrix `mW` asserting those two cells,
the amended theorem yields modifier byte 1 and key slots `[4,0,0,0,0,0]` on
both encoders. -/
theorem c1_witness :
    kbReportFromScan tblW tblW mW = ⟨1, 0, [4, 0, 0, 0, 0, 0]⟩
    ∧ report_from_matrix tblW tblW mW = ⟨1, 0, 0, [4, 0, 0, 0, 0, 0]⟩ := by
  have h := c1_amended tblW tblW mW (by decide) (by decide)
  exact ⟨h.1.trans (by decide), (h.2 (by decide)).trans (by decide)⟩

/-- C2 (divergence at the failing input): with seven cells asserted that map
to the normal keys 4..10, the live main-loop encoder `report_from_matrix`
fills the six slots with the first six keys and silently drops the seventh,
whereas the `KbHidReport` encoder — and the claim — put the rollover
sentinel `ErrorRollOver = 1` into all six slots. -/
theorem c2_divergence :
    ((pressedCodes (selectedTable tbl7 tbl7 m7) m7).filter isNormalKey).length
      = 7
    ∧ (report_from_matrix tbl7 tbl7 m7).keycodes = [4, 5, 6, 7, 8, 9]
    ∧ (kbReportFromScan tbl7 tbl7 m7).slots = List.replicate 6 1
    ∧ (report_from_matrix tbl7 tbl7 m7).keycodes ≠ List.replicate 6 1 := by
  refine ⟨by decide, by decide, by decide, by decide⟩

/-- C3 (counterexample): the claim fails on the firmware's poll loop.  For
the admissible debounce filter `dbConstFalse`, the raw matrices `mW` (two
keys closed) and `mEmpty` debounce to the same (all-open) matrix, yet the
loop — which encodes straight from `scan_keys`' raw matrix and never calls
a debounce filter — hands the transport different reports for them: raw
samples reach the report logic. -/
theorem c3_counterexample :
    (dbConstFalse () mW).1 = (dbConstFalse () mEmpty).1
    ∧ mainLoopCycle tblW tblW mW ≠ mainLoopCycle tblW tblW mEmpty := by
  exact ⟨rfl, by decide⟩

/-- C3 (amended): in `KeyScan::scan` the raw matrix is passed to the
debounce filter once and the cycle's report depends on the raw matrix only
through the filter's returned matrix — two raw samples with the same
filter output yield byte-identical reports.  The firmware's main poll loop,
by contrast, encodes its report directly from the raw `scan_keys` matrix
with no debounce stage (see the counterexample). -/
theorem c3_amended {σ : Type} (reportAndTick : σ → KeyMatrix → KeyMatrix × σ)
    (db : σ) (tfn tnm : LayerTable) (raw1 raw2 : KeyMatrix)
    (h : (reportAndTick db raw1).1 = (reportAndTick db raw2).1) :
    scanCycleReport reportAndTick db tfn tnm raw1
      = scanCycleReport reportAndTick db tfn tnm raw2 := by
  unfold scanCycleReport keyScanScan
  rw [h]

/-- C3 (witness): under the filter `dbConstFalse` the raw matrices `mW` and
`mEmpty` debounce identically, so the `KeyScan` pipeline reports are
byte-identical. -/
theorem c3_witness :
    scanCycleReport dbConstFalse () tblW tblW mW
      = scanCycleReport dbConstFalse () tblW tblW mEmpty :=
  c3_amended dbConstFalse () tblW tblW mW mEmpty rfl

/-- C4 (counterexample): the claim fails on the firmware's poll loop.  Two
consecutive cycles scanning the same matrix produce byte-identical encoded
reports, yet the loop pushes a report to the transport unconditionally every
completed period, so the transport observes two transmissions, not one. -/
theorem c4_counterexample :
    mainLoopCycle tblW tblW mW = mainLoopCycle tblW tblW mW
    ∧ (pushesOverCycles tblW tblW [mW, mW]).length = 2
    ∧ (pushesOverCycles tblW tblW [mW, mW]).length ≠ 1 := by
  exact ⟨rfl, rfl, by decide⟩

/-- C4 (amended): `Keyboard::set_keyboard_report` returns `false` exactly
when the new report is byte-equal to the stored one, leaves the device
unchanged in that case, and always leaves the passed report stored; but the
firmware's main poll loop does not route reports through it — it hands one
report to the transport per completed cycle unconditionally, so consecutive
byte-identical reports are each transmitted. -/
theorem c4_amended (k : Keyboard) (r : KbHidReport) (tfn tnm : LayerTable)
    (ms : List KeyMatrix) :
    ((k.set_keyboard_report r).1 = false ↔ r = k.report)
    ∧ k.set_keyboard_report k.report = (false, k)
    ∧ ((k.set_keyboard_report r).2).report = r
    ∧ (pushesOverCycles tfn tnm ms).length = ms.length := by
  refine ⟨?_, ?_, set_keyboard_report_report k r, ?_⟩
  · unfold Keyboard.set_keyboard_report
    split <;> simp_all
  · unfold Keyboard.set_keyboard_report
    simp
  · unfold pushesOverCycles
    exact List.length_map _ _

/-- C4 (witness): submitting the stored report again returns `false` and
changes nothing, while two equal-matrix loop cycles still push twice. -/
theorem c4_witness :
    Keyboard.set_keyboard_report k0 k0.report = (false, k0)
    ∧ (pushesOverCycles tblW tblW [mW, mW]).length = 2 := by
  have h := c4_amended k0 k0.report tblW tblW [mW, mW]
  exact ⟨h.2.1, h.2.2.2⟩

/-- C5: `set_report` succeeds exactly for (Output, id 0, one payload byte),
decoding bits 0-4 of the byte into num lock, caps lock, scroll lock,
compose, kana and forwarding them to the LED collaborator; every other
combination returns the unsupported-report error.  Payload 1 sets only num
lock; payload 16 sets only kana. -/
theorem c5_set_report (k : Keyboard) (t : ReportType) (id : Nat)
    (data : List Nat) (d : Nat) :
    ((k.set_report t id data).1 = Except.ok ()
      ↔ (t = ReportType.Output ∧ id = 0 ∧ data.length = 1))
    ∧ ((k.set_report t id data).1 = Except.error ()
      ↔ ¬(t = ReportType.Output ∧ id = 0 ∧ data.length = 1))
    ∧ (k.set_report ReportType.Output 0 [d]).2.leds = ledsOfByte d
    ∧ (k.set_report ReportType.Output 0 [1]).2.leds
        = ⟨true, false, false, false, false⟩
    ∧ (k.set_report ReportType.Output 0 [16]).2.leds
        = ⟨false, false, false, false, true⟩ := by
  refine ⟨?_, ?_, ?_, ?_, ?_⟩
  · unfold Keyboard.set_report
    split <;> simp_all
  · unfold Keyboard.set_report
    split <;> simp_all
  · unfold Keyboard.set_report
    rw [if_pos ⟨rfl, rfl, rfl⟩]
    rfl
  · unfold Keyboard.set_report
    rw [if_pos ⟨rfl, rfl, rfl⟩]
    rfl
  · unfold Keyboard.set_report
    rw [if_pos ⟨rfl, rfl, rfl⟩]
    rfl

/-- C5 (witness): on the fresh device, (Output, 0, [1]) succeeds, and a
payload of 16 turns on exactly the kana indicator. -/
theorem c5_witness :
    (Keyboard.set_report k0 ReportType.Output 0 [1]).1 = Except.ok ()
    ∧ (Keyboard.set_report k0 ReportType.Output 0 [16]).2.leds
        = ⟨false, false, false, false, true⟩ := by
  have h := c5_set_report k0 ReportType.Output 0 [1] 16
  exact ⟨h.1.mpr ⟨rfl, rfl, rfl⟩, h.2.2.2.2⟩

/-- C6: `get_report` with the Input type returns exactly the stored report's
8 bytes — the all-zero default on a fresh device, and the bytes of the last
report passed to `set_keyboard_report` afterwards — while any other report
type fails with the unsupported-report error (the report id is ignored). -/
theorem c6_get_report (k : Keyboard) (t : ReportType) (id id2 id3 : Nat)
    (r : KbHidReport) (l : LedsState) :
    (k.get_report t id = Except.ok k.report.bytes ↔ t = ReportType.Input)
    ∧ (k.get_report t id = Except.error () ↔ t ≠ ReportType.Input)
    ∧ (Keyboard.new l).get_report ReportType.Input id2
        = Except.ok (List.replicate 8 0)
    ∧ ((k.set_keyboard_report r).2).get_report ReportType.Input id3
        = Except.ok r.bytes := by
  refine ⟨?_, ?_, ?_, ?_⟩
  · cases t <;> simp [Keyboard.get_report]
  · cases t <;> simp [Keyboard.get_report]
  · rfl
  · show Except.ok ((k.set_keyboard_report r).2).report.bytes = _
    rw [set_keyboard_report_report]

/-- C6 (witness): the fresh device answers Input with eight zero bytes and
rejects an Output-type `get_report`; after committing `rptW` the Input
answer is `rptW`'s bytes. -/
theorem c6_witness :
    Keyboard.get_report k0 ReportType.Input 0
      = Except.ok (List.replicate 8 0)
    ∧ Keyboard.get_report k0 ReportType.Output 0 = Except.error ()
    ∧ ((k0.set_keyboard_report rptW).2).get_report ReportType.Input 0
        = Except.ok rptW.bytes := by
  have h := c6_get_report k0 ReportType.Output 0 0 0 rptW ledsInit
  exact ⟨h.2.2.1, h.2.1.mpr (by decide), h.2.2.2⟩

/-- C7: the layer table is a pure function of the current matrix's cell
(column 0, row 5): asserted selects FN, deasserted selects Normal, on both
encoders; in two consecutive cycles, a second cycle with the cell deasserted
encodes under the Normal table whatever the first cycle's matrix was. -/
theorem c7_layer_select (tfn tnm : LayerTable) (m1 m2 : KeyMatrix)
    (h : m2 0 5 = false) :
    (consecutiveReports tfn tnm m1 m2).2 = reportUnder tnm m2
    ∧ kbReportFromScan tfn tnm m2 = kbReportUnder tnm m2
    ∧ (∀ m : KeyMatrix, m 0 5 = true →
        report_from_matrix tfn tnm m = reportUnder tfn m
        ∧ kbReportFromScan tfn tnm m = kbReportUnder tfn m) := by
  refine ⟨?_, ?_, ?_⟩
  · show report_from_matrix tfn tnm m2 = _
    unfold report_from_matrix selectedTable
    rw [h]
    rfl
  · unfold kbReportFromScan selectedTable
    rw [h]
    rfl
  · intro m hm
    constructor
    · unfold report_from_matrix selectedTable
      rw [hm]
      rfl
    · unfold kbReportFromScan selectedTable
      rw [hm]
      rfl

/-- C7 (witness): after a first cycle holding the FN cell (`mFN`), a second
cycle scanning `mW` (FN cell open) encodes under the Normal table, and a
cycle scanning `mFN` itself encodes under the FN table. -/
theorem c7_witness :
    (consecutiveReports tbl7 tblW mFN mW).2 = reportUnder tblW mW
    ∧ report_from_matrix tbl7 tblW mFN = reportUnder tbl7 mFN := by
  have h := c7_layer_select tbl7 tblW mFN mW (by decide)
  exact ⟨h.1, (h.2.2 mFN (by decide)).1⟩

/-- C8: if the bootloader-entry cell (column 0, row 0) is asserted in the
one scan performed before the loop, the firmware is in the bootloader after
any number of subsequent periods and the loop body never runs; if it is
deasserted, every subsequent period executes one loop body iteration and the
bootloader is never entered, whatever the later matrices contain. -/
theorem c8_bootloader (first : KeyMatrix) (rest : List KeyMatrix) :
    (first 0 0 = true → runFirmware first rest = FwPhase.boot)
    ∧ (first 0 0 = false →
        runFirmware first rest = FwPhase.loopRun rest.length) := by
  constructor
  · intro h
    unfold runFirmware initialPhase
    rw [h]
    exact foldl_stepPhase_boot rest
  · intro h
    unfold runFirmware initialPhase
    rw [h]
    show rest.foldl stepPhase (FwPhase.loopRun 0) = _
    rw [foldl_stepPhase_loopRun rest 0]
    simp

/-- C8 (witness): holding the Escape cell at power-on boots to the
bootloader forever; not holding it runs the loop forever — even when the
cell is held during later scans, the check is not repeated. -/
theorem c8_witness :
    runFirmware mBoot [mEmpty, mEmpty] = FwPhase.boot
    ∧ runFirmware mEmpty [mBoot, mBoot] = FwPhase.loopRun 2 := by
  exact ⟨(c8_bootloader mBoot [mEmpty, mEmpty]).1 (by decide),
         (c8_bootloader mEmpty [mBoot, mBoot]).2 (by decide)⟩

/-- C9: the report descriptor of `keyboard.rs` is, byte for byte, the
structured boot-keyboard descriptor the spec describes — one application
collection with an 8-usage 1-bit modifier bitfield (usages 0xE0-0xE7,
logical 0-1), one constant 8-bit reserved field, six 8-bit array-type key
fields with usages and logical range 0-255, five 1-bit LED output fields
and three constant output padding bits — and the device declares an 8-byte
maximum packet size, the boot-interface subclass and the keyboard
protocol. -/
theorem c9_descriptor :
    REPORT_DESCRIPTOR = specDescriptorBytes
    ∧ Keyboard.max_packet_size = 8
    ∧ Keyboard.subclass = Subclass.BootInterface
    ∧ Keyboard.protocol = Protocol.Keyboard := by
  refine ⟨by decide, rfl, rfl, rfl⟩

/-- C10: `set_report` never touches the stored input report — `get_report`
(Input) answers identically before and after any `set_report` call — and a
failing `set_report` leaves the whole device state (report and LEDs)
unchanged. -/
theorem c10_frame (k : Keyboard) (t : ReportType) (id : Nat)
    (data : List Nat) (id2 : Nat) :
    (k.set_report t id data).2.report = k.report
    ∧ ((k.set_report t id data).2).get_report ReportType.Input id2
        = k.get_report ReportType.Input id2
    ∧ ((k.set_report t id data).1 = Except.error ()
        → (k.set_report t id data).2 = k) := by
  unfold Keyboard.set_report
  split
  · refine ⟨rfl, rfl, ?_⟩
    intro h
    simp at h
  · exact ⟨rfl, rfl, fun _ => rfl⟩

/-- C10 (witness): a rejected `set_report` (Input type) leaves the fresh
device exactly as it was, and an accepted one (Output, 0, [1]) leaves the
stored report untouched. -/
theorem c10_witness :
    (Keyboard.set_report k0 ReportType.Input 0 []).2 = k0
    ∧ (Keyboard.set_report k0 ReportType.Output 0 [1]).2.report
        = k0.report := by
  have h1 := c10_frame k0 ReportType.Input 0 [] 0
  have h2 := c10_frame k0 ReportType.Output 0 [1] 0
  exact ⟨h1.2.2 rfl, h2.1⟩

end KeyRipper
